import Mathlib

/-!
Shallow embedding of the connection-management and error-handling core of the
edgedb-go driver slice: the pool handle (`poolConn`), the borrow guard
(`borrowableConn`), the error aggregator (`wrapAll` over `wrappedManyError`),
and the error-response decoder (`decodeError` with `positionFromHeaders`).

Go methods that mutate their receiver are embedded in state-passing style:
each operation returns the updated record together with its result.  Go
`error` values that only matter through their classification are embedded as
records of classification flags; panics are embedded as explicit fatal
outcomes.  External collaborators (the pool object, the physical connection
flows, the network-error classifier) appear as opaque identifiers or function
parameters, exactly at their interface boundary.
-/

set_option autoImplicit false

namespace EdgedbGo

/-! ### Pool handle (`poolConn`) -/

/-- Classification view of a Go `error` value as seen by `poolConn.checkErr`:
whether `soc.IsPermanentNetErr` holds of it, and whether it wraps a driver
`Error` whose `Category(UnexpectedMessageError)` is true.  The `name` field
stands for the identity of the underlying Go error value. -/
structure Err where
  permanentNet : Bool
  unexpectedMsgCat : Bool
  name : String
deriving DecidableEq, Repr

/-- An error is health-impairing when either classification branch of
`poolConn.checkErr` records it. -/
def impairing (e : Err) : Bool :=
  e.permanentNet || e.unexpectedMsgCat

/-- The three owned fields of a `poolConn`.  The pool and the physical
connection are external collaborators, embedded as opaque identifiers. -/
structure PoolConn where
  pool : Option Nat
  err : Option Err
  conn : Option Nat
deriving DecidableEq, Repr

/-- Outcome of one `Release` call: either the release routine of the pool was
invoked (recording the connection and the health error passed to it, whose
return value is forwarded to the caller), or the handle was already released
and an interface error is returned without touching the pool. -/
inductive ReleaseOutcome where
  | released (conn : Option Nat) (health : Option Err)
  | alreadyReleased (msg : String)
deriving DecidableEq, Repr

/-- Embedding of `poolConn.Release`: a nil pool means the handle was already
released; otherwise the release routine of the pool is invoked with the
connection and the accumulated health error, and all three fields are
cleared. -/
def poolConn.Release (c : PoolConn) : PoolConn × ReleaseOutcome :=
  match c.pool with
  | none => (c, .alreadyReleased ("connection released more than once"))
  | some _ => (⟨none, none, none⟩, .released c.conn c.err)

/-- Embedding of `poolConn.checkErr`: a nil error (or an error in neither
classification) leaves the handle unchanged; a permanent network error, or an
error in the unexpected-message category, is recorded in the `err` field. -/
def poolConn.checkErr (c : PoolConn) (res : Option Err) : PoolConn :=
  match res with
  | none => c
  | some e =>
    if e.permanentNet then { c with err := some e }
    else if e.unexpectedMsgCat then { c with err := some e }
    else c

/-- Every query/execute method of `poolConn` (`Execute`, `Query`, `QueryOne`,
`QueryJSON`, `QueryOneJSON`, `TryTx`, `Retry`) forwards to the wrapped
connection and then runs `checkErr` on the returned error.  A sequence of
such operations is embedded as the fold of `checkErr` over the list of the
errors the wrapped connection returned. -/
def runOps (c : PoolConn) (rs : List (Option Err)) : PoolConn :=
  rs.foldl poolConn.checkErr c

/-- A freshly checked-out pool handle: live pool and connection references and
no recorded health error. -/
def freshPoolConn (p conn : Nat) : PoolConn :=
  ⟨some p, none, some conn⟩

/-- Outcomes of calling `Release` repeatedly, in call order. -/
def releaseTrace : PoolConn → Nat → List ReleaseOutcome
  | _, 0 => []
  | c, n + 1 =>
    (poolConn.Release c).2 :: releaseTrace (poolConn.Release c).1 n

/-- The update `poolConn.checkErr` applies to the recorded health error,
isolated from the record plumbing. -/
def recordHealth (acc : Option Err) (r : Option Err) : Option Err :=
  match r with
  | none => acc
  | some e =>
    if e.permanentNet then some e
    else if e.unexpectedMsgCat then some e
    else acc

/-- Specification-side description of the recorded health error after a
sequence of operations: the most recent health-impairing error of the
sequence, if any. -/
def specLastImpairing (rs : List (Option Err)) : Option Err :=
  ((rs.filterMap id).filter (fun e => impairing e)).getLast?

/-! ### Borrow guard (`borrowableConn`) -/

/-- A borrowable connection: the wrapped physical connection (opaque
identifier) and the current borrow reason (the empty string when not
borrowed). -/
structure BorrowableConn where
  baseConn : Nat
  reason : String
deriving DecidableEq, Repr

/-- Message returned when the connection is borrowed for a transaction. -/
def transactionBorrowedMsg : String :=
  "The connection is borrowed for a transaction. Use the methods on the transaction object instead."

/-- Message returned when the transaction is borrowed for a subtransaction. -/
def subtransactionBorrowedMsg : String :=
  "The transaction is borrowed for a subtransaction. Use the methods on the subtransaction object instead."

/-- Outcome of `borrow`: exclusive access to the physical connection, an
interface error naming the blocking borrow, or a fatal abort (the Go code
panics on an unexpected reason string). -/
inductive BorrowOutcome where
  | ok (conn : Nat)
  | ifaceErr (msg : String)
  | fatalAbort (msg : String)
deriving DecidableEq, Repr

/-- Embedding of `borrowableConn.borrow`.  The current reason is inspected
first: an empty reason lets the borrow proceed when the requested reason is
exactly "transaction" or "subtransaction" (anything else aborts); a current
reason of "transaction" or "subtransaction" yields the corresponding
interface error; any other current reason aborts.  The `%q` formatting of the
Go panic message is embedded as plain quoting. -/
def borrow (c : BorrowableConn) (reason : String) : BorrowableConn × BorrowOutcome :=
  if c.reason = "" then
    if reason = "transaction" || reason = "subtransaction" then
      ({ c with reason := reason }, .ok c.baseConn)
    else
      (c, .fatalAbort ("unexpected reason: \"" ++ reason ++ "\""))
  else if c.reason = "transaction" then
    (c, .ifaceErr transactionBorrowedMsg)
  else if c.reason = "subtransaction" then
    (c, .ifaceErr subtransactionBorrowedMsg)
  else
    (c, .fatalAbort ("unexpected reason: \"" ++ c.reason ++ "\""))

/-- Embedding of `borrowableConn.unborrow`: aborts when not borrowed (the Go
code panics before any mutation), otherwise resets the reason.  The second
component is the fatal-abort message, if any. -/
def unborrow (c : BorrowableConn) : BorrowableConn × Option String :=
  if c.reason = "" then
    (c, some ("not currently borrowed, can not unborrow"))
  else
    ({ c with reason := ("") }, none)

/-- Result of `assertUnborrowed`: success, a descriptive interface error, or
a fatal abort on an unexpected reason string. -/
inductive AssertResult where
  | ok
  | ifaceErr (msg : String)
  | fatalAbort (msg : String)
deriving DecidableEq, Repr

/-- Embedding of `borrowableConn.assertUnborrowed`, in state-passing style so
that its effect on the borrow state is part of the statement: the Go method
only reads the reason field. -/
def assertUnborrowed (c : BorrowableConn) : BorrowableConn × AssertResult :=
  if c.reason = "" then (c, .ok)
  else if c.reason = "transaction" then (c, .ifaceErr transactionBorrowedMsg)
  else if c.reason = "subtransaction" then (c, .ifaceErr subtransactionBorrowedMsg)
  else (c, .fatalAbort ("unexpected reason: \"" ++ c.reason ++ "\""))

/-- Opaque stand-in for the `header.AllowCapabilities` header key, defined
outside this slice. -/
def allowCapabilitiesKey : Nat := 0

/-- Opaque stand-in for the `noTxCapabilities` value, defined outside this
slice. -/
def noTxCapabilities : Nat := 0

/-- Embedding of `borrowableConn.headers`: the header set forcing
no-transaction capabilities attached to every script-flow query. -/
def borrowHeaders : List (Nat × Nat) :=
  [(allowCapabilitiesKey, noTxCapabilities)]

/-- A script-flow query: the command text and the capability headers. -/
structure SfQuery where
  cmd : String
  headers : List (Nat × Nat)
deriving DecidableEq, Repr

/-- A granular-flow query: the requested method shape and the command text. -/
structure GfQuery where
  method : String
  cmd : String
deriving DecidableEq, Repr

/-- Result of a facade flow call: the underlying flow ran and returned its
error (or nil), or the borrow guard rejected the call, or the guard aborted
fatally. -/
inductive FlowResult where
  | flowRes (e : Option String)
  | borrowErr (msg : String)
  | fatalRes (msg : String)
deriving DecidableEq, Repr

/-- Embedding of `borrowableConn.scriptFlow`.  The underlying
`baseConn.scriptFlow` is an external collaborator, passed as a function from
the physical connection to the error it returns.  The boolean records whether
the underlying flow was invoked. -/
def borrowableConn.scriptFlow (base : Nat → SfQuery → Option String)
    (c : BorrowableConn) (q : SfQuery) : BorrowableConn × FlowResult × Bool :=
  match assertUnborrowed c with
  | (c2, .ok) => (c2, .flowRes (base c2.baseConn q), true)
  | (c2, .ifaceErr m) => (c2, .borrowErr m, false)
  | (c2, .fatalAbort m) => (c2, .fatalRes m, false)

/-- Embedding of `borrowableConn.granularFlow`, mirroring `scriptFlow` for
result-producing queries. -/
def borrowableConn.granularFlow (base : Nat → GfQuery → Option String)
    (c : BorrowableConn) (q : GfQuery) : BorrowableConn × FlowResult × Bool :=
  match assertUnborrowed c with
  | (c2, .ok) => (c2, .flowRes (base c2.baseConn q), true)
  | (c2, .ifaceErr m) => (c2, .borrowErr m, false)
  | (c2, .fatalAbort m) => (c2, .fatalRes m, false)

/-- Embedding of `borrowableConn.Execute`: builds the script-flow query with
the no-transaction-capability headers and dispatches it. -/
def borrowableConn.Execute (base : Nat → SfQuery → Option String)
    (c : BorrowableConn) (cmd : String) : BorrowableConn × FlowResult × Bool :=
  borrowableConn.scriptFlow base c ⟨cmd, borrowHeaders⟩

/-- Modelled from the spec: `runQuery` is not part of this slice; per the
spec, each granular facade call builds the query for the requested method
shape and dispatches it through the granular flow. -/
def runQuery (base : Nat → GfQuery → Option String)
    (c : BorrowableConn) (method cmd : String) : BorrowableConn × FlowResult × Bool :=
  borrowableConn.granularFlow base c ⟨method, cmd⟩

/-- Embedding of `borrowableConn.Query`. -/
def borrowableConn.Query (base : Nat → GfQuery → Option String)
    (c : BorrowableConn) (cmd : String) : BorrowableConn × FlowResult × Bool :=
  runQuery base c ("Query") cmd

/-- Embedding of `borrowableConn.QueryOne`. -/
def borrowableConn.QueryOne (base : Nat → GfQuery → Option String)
    (c : BorrowableConn) (cmd : String) : BorrowableConn × FlowResult × Bool :=
  runQuery base c ("QueryOne") cmd

/-- Embedding of `borrowableConn.QueryJSON`. -/
def borrowableConn.QueryJSON (base : Nat → GfQuery → Option String)
    (c : BorrowableConn) (cmd : String) : BorrowableConn × FlowResult × Bool :=
  runQuery base c ("QueryJSON") cmd

/-- Embedding of `borrowableConn.QueryOneJSON`. -/
def borrowableConn.QueryOneJSON (base : Nat → GfQuery → Option String)
    (c : BorrowableConn) (cmd : String) : BorrowableConn × FlowResult × Bool :=
  runQuery base c ("QueryOneJSON") cmd

/-- Decidable substring test used to state that a borrow error names the
blocking borrow. -/
def containsSub (needle : List Char) : List Char → Bool
  | [] => needle.isPrefixOf []
  | c :: rest => needle.isPrefixOf (c :: rest) || containsSub needle rest

/-! ### Error aggregation (`wrapAll` and `wrappedManyError`) -/

/-- A Go error value as seen by the aggregator: either a leaf error (with an
identity used by pointer/`Is` comparison, a type tag used by `As` matching,
and a message), or a `wrappedManyError` holding its display message and its
constituent list. -/
inductive GErr where
  | leaf (id : Nat) (ty : Nat) (msg : String)
  | wrappedMany (msg : String) (errs : List GErr)

mutual

/-- Abstraction of the standard-library `errors.Is` over `GErr`: leaf errors
match by identity; a `wrappedManyError` delegates through its `Is` method,
which is the in-order short-circuiting loop over the constituents. -/
def errorsIs : GErr → GErr → Bool
  | .leaf i _ _, .leaf j _ _ => i == j
  | .leaf _ _ _, .wrappedMany _ _ => false
  | .wrappedMany _ errs, t => errorsIsList errs t

/-- Embedding of the `wrappedManyError.Is` method body: try each constituent
in order, returning at the first match. -/
def errorsIsList : List GErr → GErr → Bool
  | [], _ => false
  | e :: rest, t => errorsIs e t || errorsIsList rest t

end

mutual

/-- Abstraction of the standard-library `errors.As` over `GErr`, with target
types embedded as numeric tags: leaf errors match by type tag; a
`wrappedManyError` delegates through its `As` method. -/
def errorsAs : GErr → Nat → Bool
  | .leaf _ t _, ty => t == ty
  | .wrappedMany _ errs, ty => errorsAsList errs ty

/-- Embedding of the `wrappedManyError.As` method body: try each constituent
in order, returning at the first match. -/
def errorsAsList : List GErr → Nat → Bool
  | [], _ => false
  | e :: rest, ty => errorsAs e ty || errorsAsList rest ty

end

/-- The `Error()` message of a `GErr`. -/
def errMsg : GErr → String
  | .leaf _ _ m => m
  | .wrappedMany m _ => m

/-- Embedding of `wrapAll`: filter out nils; zero remaining errors yield nil;
one remaining error is returned unmodified; two or more are wrapped into a
`wrappedManyError` whose message is built by appending "; " and each later
constituent message to the first constituent message. -/
def wrapAll (errs : List (Option GErr)) : Option GErr :=
  match errs.filterMap id with
  | [] => none
  | [e] => some e
  | e :: rest =>
    some (.wrappedMany (rest.foldl (fun m x => m ++ "; " ++ errMsg x) (errMsg e)) (e :: rest))

/-- Specification-side join of messages with "; " separators, in input
order. -/
def joinedBySemicolons : List String → String
  | [] => ""
  | [m] => m
  | m :: rest => m ++ "; " ++ joinedBySemicolons rest

/-! ### Error-response decoding (`decodeError`, `positionFromHeaders`)

Strings are embedded through their character lists; Go byte indexing and Go
`len` on strings are embedded through the UTF-8 byte sizes of the
characters.  All recursions are structural so every definition evaluates
inside the kernel.
-/

/-- UTF-8 byte size of one Unicode scalar value, as Go `len` counts it. -/
def charUtf8Size (c : Char) : Nat :=
  if c.toNat < 128 then 1
  else if c.toNat < 2048 then 2
  else if c.toNat < 65536 then 3
  else 4

/-- Go `len` of a string: its UTF-8 byte length. -/
def byteLen (s : String) : Nat :=
  (s.data.map charUtf8Size).foldl (fun a n => a + n) 0

/-- Embedding of `strings.Split(q, "\n")` on character lists: every newline
separates, and empty segments are kept. -/
def splitLines : List Char → List (List Char)
  | [] => [[]]
  | c :: rest =>
    if c = '\n' then [] :: splitLines rest
    else
      match splitLines rest with
      | [] => [[c]]
      | l :: ls => (c :: l) :: ls

/-- The lines of the query text, as the Go code computes them. -/
def linesOf (q : String) : List String :=
  (splitLines q.data).map String.mk

/-- Embedding of `strings.ReplaceAll(line, "\t", " ")`: the pattern is a
single character, so the replacement is a character map. -/
def tabsToSpaces (s : String) : String :=
  String.mk (s.data.map (fun c => if c = '\t' then ' ' else c))

/-- Go map lookup over the header list read off the wire, with
last-insertion-wins semantics. -/
def headerLookup (hs : List (Nat × String)) (k : Nat) : Option String :=
  hs.foldl (fun acc p => if p.1 == k then some p.2 else acc) none

/-- Decimal value of a nonempty digit string, `none` on any other input. -/
def digitsVal? (l : List Char) : Option Nat :=
  match l with
  | [] => none
  | _ =>
    l.foldl
      (fun acc c =>
        match acc with
        | none => none
        | some n => if c.isDigit then some (10 * n + (c.toNat - 48)) else none)
      (some 0)

/-- Embedding of `strconv.Atoi` restricted to values that fit: an optional
sign followed by decimal digits, `none` (hence a panic in `atoiOrPanic`) on
anything else. -/
def atoi? (s : String) : Option Int :=
  match s.data with
  | '+' :: rest => (digitsVal? rest).map (fun n => (n : Int))
  | '-' :: rest => (digitsVal? rest).map (fun n => -(n : Int))
  | l => (digitsVal? l).map (fun n => (n : Int))

/-- The `hint` header key (0x0001). -/
def hintHeader : Nat := 1

/-- The `positionStart` header key (0xfff1). -/
def positionStartHeader : Nat := 65521

/-- The `lineStart` header key (0xfff3). -/
def lineStartHeader : Nat := 65523

/-- An error position: zero-based line number and one-based raw byte offset
into the whole query text, both as arbitrary-precision integers since the Go
fields are machine ints. -/
structure ErrPosition where
  lineNo : Int
  byteNo : Int
deriving DecidableEq, Repr

/-- Result of `positionFromHeaders`: no position when either header is
missing, a fatal abort when a present header value fails to parse
(`atoiOrPanic`), and the position otherwise. -/
inductive PosResult where
  | noPos
  | pos (p : ErrPosition)
  | fatalPos (msg : String)
deriving DecidableEq, Repr

/-- Embedding of `positionFromHeaders`: look the two headers up first (either
missing one means no position, with no parsing), then parse the line header,
then the position header. -/
def positionFromHeaders (hs : List (Nat × String)) : PosResult :=
  match headerLookup hs lineStartHeader with
  | none => .noPos
  | some lineNo =>
    match headerLookup hs positionStartHeader with
    | none => .noPos
    | some byteNo =>
      match atoi? lineNo with
      | none => .fatalPos ("strconv.Atoi: parsing failed")
      | some l =>
        match atoi? byteNo with
        | none => .fatalPos ("strconv.Atoi: parsing failed")
        | some b => .pos ⟨l - 1, b⟩

/-- Byte length of every line before line `ln`, each with its newline, as
subtracted by the loop in `decodeError`. -/
def precBytes (lines : List String) (ln : Nat) : Nat :=
  (lines.take ln).foldl (fun a l => a + (1 + byteLen l)) 0

/-- Embedding of Go `utf8.RuneCountInString(line[:b])` for a valid-UTF-8
line and `b` at most the byte length of the line: whole scalar values that
fit in the prefix count once; when the cut falls inside the encoding of a
scalar value, each remaining byte decodes as one error rune, so each counts
once. -/
def runeCountUpTo : List Char → Nat → Nat
  | _, 0 => 0
  | [], b => b
  | c :: rest, b =>
    if charUtf8Size c ≤ b then 1 + runeCountUpTo rest (b - charUtf8Size c)
    else b

/-- Specification-side count of the Unicode scalar values of the line that
lie wholly before byte offset `b`. -/
def scalarsBefore : List Char → Nat → Nat
  | _, 0 => 0
  | [], _ => 0
  | c :: rest, b =>
    if charUtf8Size c ≤ b then 1 + scalarsBefore rest (b - charUtf8Size c)
    else 0

/-- Whether byte offset `b` falls on a scalar-value boundary of the line. -/
def isScalarBoundary : List Char → Nat → Bool
  | _, 0 => true
  | [], _ => false
  | c :: rest, b =>
    if charUtf8Size c ≤ b then isScalarBoundary rest (b - charUtf8Size c)
    else false

/-- Embedding of `strings.Repeat(" ", n)`. -/
def spacesStr (n : Nat) : String :=
  String.mk (List.replicate n ' ')

/-- The decoded fields of an error-response payload: severity (discarded by
the code), the numeric error code, the message, and the headers in wire
order. -/
structure ErrorPayload where
  severity : Nat
  code : Nat
  msg : String
  headers : List (Nat × String)
deriving DecidableEq, Repr

/-- The position-rendering information `decodeError` computes before
composing the message: either there is no position, or a fatal abort (a Go
panic from parsing or out-of-range indexing), or the zero-based line number,
the tab-replaced target line, the byte offset into that line, the rune count
before that offset, and the hint text. -/
inductive RenderInfo where
  | noRender
  | fatalRender (msg : String)
  | info (lineNo : Int) (line : String) (byteOff : Nat) (runeCount : Nat) (hintText : String)
deriving DecidableEq, Repr

/-- The position-dependent part of `decodeError`: resolve the position
headers, read the hint header (defaulting to "error"), split the query into
lines, index the target line (a Go panic when the line number is out of
range), subtract the byte lengths of the preceding lines plus their
newlines, and slice the target line at the resulting offset (a Go panic when
it is negative or past the end of the line). -/
def decodeRender (hs : List (Nat × String)) (query : String) : RenderInfo :=
  match positionFromHeaders hs with
  | .fatalPos m => .fatalRender m
  | .noPos => .noRender
  | .pos ps =>
    let hintText := (headerLookup hs hintHeader).getD ("error")
    let lines := linesOf query
    if 0 ≤ ps.lineNo ∧ ps.lineNo < (lines.length : Int) then
      let line := tabsToSpaces (lines.getD ps.lineNo.toNat (""))
      let off : Int := ps.byteNo - (precBytes lines ps.lineNo.toNat : Int)
      if 0 ≤ off ∧ off ≤ (byteLen line : Int) then
        .info ps.lineNo line off.toNat (runeCountUpTo line.data off.toNat) hintText
      else .fatalRender ("runtime error: slice bounds out of range")
    else .fatalRender ("runtime error: index out of range")

/-- Result of decoding an error response: the code/message pair handed to
`errorFromCode` (which maps it to the typed error value; embedded as the
pair itself), or a fatal abort where the Go code panics. -/
inductive DecodeResult where
  | ok (code : Nat) (msg : String)
  | fatalDecode (msg : String)
deriving DecidableEq, Repr

/-- Embedding of `decodeError`: without a position the plain code/message
pair is returned; with one, the message is extended with the position block
built from the render information. -/
def decodeError (p : ErrorPayload) (query : String) : DecodeResult :=
  match decodeRender p.headers query with
  | .noRender => .ok p.code p.msg
  | .fatalRender m => .fatalDecode m
  | .info ln line _ rc hintText =>
    .ok p.code
      (p.msg ++ "\nquery:" ++ toString (1 + ln) ++ ":" ++ toString (1 + rc) ++ "\n\n"
        ++ line ++ "\n" ++ spacesStr rc ++ "^ " ++ hintText)

/-- Message composition exactly as claim C8 words it: the original message,
then a blank line, then the query position line, then the source line, then
the padding line with the caret and the hint. -/
def claimComposedMessage (msg : String) (lineNo1 colNo1 : Nat)
    (line padding hintText : String) : String :=
  msg ++ "\n\n" ++ "query:" ++ toString lineNo1 ++ ":" ++ toString colNo1 ++ "\n"
    ++ line ++ "\n" ++ padding ++ "^ " ++ hintText

/-! ### Helper lemmas: pool handle -/

theorem checkErr_health (c : PoolConn) (r : Option Err) :
    poolConn.checkErr c r = { c with err := recordHealth c.err r } := by
  cases r with
  | none => rfl
  | some e =>
    simp only [poolConn.checkErr, recordHealth]
    by_cases h1 : e.permanentNet <;> by_cases h2 : e.unexpectedMsgCat <;> simp [h1, h2]

theorem runOps_foldl (rs : List (Option Err)) : ∀ c : PoolConn,
    runOps c rs = { c with err := rs.foldl recordHealth c.err } := by
  induction rs with
  | nil => intro c; rfl
  | cons r rs ih =>
    intro c
    show runOps (poolConn.checkErr c r) rs = _
    rw [ih, checkErr_health]
    rfl

theorem recordHealth_impairing (acc : Option Err) (e : Err) (h : impairing e = true) :
    recordHealth acc (some e) = some e := by
  simp only [impairing, Bool.or_eq_true] at h
  rcases h with h | h <;> simp [recordHealth, h]

theorem recordHealth_benign (acc : Option Err) (e : Err) (h : impairing e = false) :
    recordHealth acc (some e) = acc := by
  simp only [impairing, Bool.or_eq_false_iff] at h
  simp [recordHealth, h.1, h.2]

theorem specLastImpairing_cons_none (rs : List (Option Err)) :
    specLastImpairing (none :: rs) = specLastImpairing rs := by
  simp [specLastImpairing, List.filterMap_cons]

theorem specLastImpairing_cons_benign (rs : List (Option Err)) (e : Err)
    (h : impairing e = false) :
    specLastImpairing (some e :: rs) = specLastImpairing rs := by
  simp [specLastImpairing, List.filterMap_cons, List.filter_cons, h]

theorem getLast?_cons_general {α : Type} (a : α) (l : List α) :
    (a :: l).getLast? = some (l.getLast?.getD a) := by
  induction l generalizing a with
  | nil => rfl
  | cons b l ih =>
    rw [List.getLast?_cons_cons, ih b]
    rfl

theorem specLastImpairing_cons_impairing (rs : List (Option Err)) (e : Err)
    (h : impairing e = true) :
    specLastImpairing (some e :: rs) = some ((specLastImpairing rs).getD e) := by
  simp only [specLastImpairing, List.filterMap_cons, id, List.filter_cons, h, if_pos]
  exact getLast?_cons_general e _

theorem foldl_recordHealth (rs : List (Option Err)) : ∀ acc : Option Err,
    rs.foldl recordHealth acc = (specLastImpairing rs).elim acc some := by
  induction rs with
  | nil => intro acc; rfl
  | cons r rs ih =>
    intro acc
    show rs.foldl recordHealth (recordHealth acc r) = _
    rw [ih]
    cases r with
    | none =>
      rw [specLastImpairing_cons_none]
      rfl
    | some e =>
      by_cases h : impairing e = true
      · rw [recordHealth_impairing acc e h, specLastImpairing_cons_impairing rs e h]
        cases specLastImpairing rs <;> rfl
      · rw [recordHealth_benign acc e (by simpa using h),
          specLastImpairing_cons_benign rs e (by simpa using h)]

theorem specLastImpairing_eq_none_iff (rs : List (Option Err)) :
    specLastImpairing rs = none ↔ ∀ e : Err, some e ∈ rs → impairing e = false := by
  simp only [specLastImpairing, List.getLast?_eq_none_iff, List.filter_eq_nil_iff,
    List.mem_filterMap, id]
  constructor
  · intro h e he
    simpa using h e ⟨some e, he, rfl⟩
  · intro h e he
    rcases he with ⟨r, hr, hid⟩
    subst hid
    simpa using h e hr

theorem specLastImpairing_eq_some (rs : List (Option Err)) (e : Err)
    (h : specLastImpairing rs = some e) : some e ∈ rs ∧ impairing e = true := by
  have hm : e ∈ (rs.filterMap id).filter (fun x => impairing x) :=
    List.mem_of_getLast?_eq_some h
  rw [List.mem_filter, List.mem_filterMap] at hm
  rcases hm with ⟨⟨r, hr, hid⟩, himp⟩
  subst hid
  exact ⟨hr, himp⟩

theorem releaseTrace_after_release (n : Nat) : ∀ c : PoolConn, c.pool = none →
    releaseTrace c n =
      List.replicate n (.alreadyReleased ("connection released more than once")) := by
  induction n with
  | zero => intro c _; rfl
  | succ n ih =>
    intro c h
    show (poolConn.Release c).2 :: releaseTrace (poolConn.Release c).1 n = _
    have hr : poolConn.Release c =
        (c, .alreadyReleased ("connection released more than once")) := by
      simp [poolConn.Release, h]
    rw [hr, List.replicate_succ, ih c h]

/-! ### Claims on the pool handle -/

/-- Claim C1: for every pool handle, the first call to Release invokes the
release routine of the pool exactly once, passing the accumulated health
error, and clears all three owned fields; every subsequent call returns a
"released more than once" interface error and never invokes the release
routine of the pool again. -/
theorem release_invoked_once (c : PoolConn) (p : Nat) (hp : c.pool = some p) (n : Nat) :
    poolConn.Release c = (⟨none, none, none⟩, .released c.conn c.err) ∧
    releaseTrace c (n + 1) =
      .released c.conn c.err ::
        List.replicate n (.alreadyReleased ("connection released more than once")) := by
  have hr : poolConn.Release c = (⟨none, none, none⟩, .released c.conn c.err) := by
    simp [poolConn.Release, hp]
  refine ⟨hr, ?_⟩
  show (poolConn.Release c).2 :: releaseTrace (poolConn.Release c).1 n = _
  rw [hr]
  exact congrArg _ (releaseTrace_after_release n _ rfl)

theorem release_invoked_once_witness :
    poolConn.Release ⟨some 1, none, some 2⟩ = (⟨none, none, none⟩, .released (some 2) none) ∧
    releaseTrace ⟨some 1, none, some 2⟩ 3 =
      .released (some 2) none ::
        List.replicate 2 (.alreadyReleased ("connection released more than once")) :=
  release_invoked_once ⟨some 1, none, some 2⟩ 1 rfl 2

/-- Claim C2: starting from a fresh handle, some operation result was
classified as permanent-network or unexpected-message if and only if Release
passes a non-nil health error to the release routine of the pool; and Release
passes nil exactly when no operation result was so classified. -/
theorem release_health_signal (p conn : Nat) (rs : List (Option Err)) :
    ((∃ e, some e ∈ rs ∧ impairing e = true) ↔
      ∃ e, (poolConn.Release (runOps (freshPoolConn p conn) rs)).2 =
        .released (some conn) (some e) ∧ impairing e = true) ∧
    ((poolConn.Release (runOps (freshPoolConn p conn) rs)).2 =
        .released (some conn) none ↔
      ∀ e : Err, some e ∈ rs → impairing e = false) := by
  have hrun : runOps (freshPoolConn p conn) rs =
      { freshPoolConn p conn with err := rs.foldl recordHealth none } :=
    runOps_foldl rs _
  have hrel : (poolConn.Release (runOps (freshPoolConn p conn) rs)).2 =
      .released (some conn) (rs.foldl recordHealth none) := by
    rw [hrun]; rfl
  rw [hrel, foldl_recordHealth rs none]
  cases hs : specLastImpairing rs with
  | none =>
    have hall := (specLastImpairing_eq_none_iff rs).mp hs
    simp only [Option.elim]
    constructor
    · constructor
      · rintro ⟨e, he, himp⟩
        rw [hall e he] at himp
        cases himp
      · rintro ⟨e, heq, himp⟩
        simp at heq
    · exact ⟨fun _ => hall, fun _ => by trivial⟩
  | some x =>
    have hx := specLastImpairing_eq_some rs x hs
    simp only [Option.elim]
    constructor
    · constructor
      · intro _
        exact ⟨x, rfl, hx.2⟩
      · intro _
        exact ⟨x, hx.1, hx.2⟩
    · constructor
      · intro heq
        simp at heq
      · intro hall
        rw [hall x hx.1] at hx
        cases hx.2


theorem release_health_signal_witness :
    (∃ e, (poolConn.Release (runOps (freshPoolConn 0 1)
        [some ⟨false, false, ("row not found")⟩, some ⟨true, false, ("net down")⟩])).2 =
      .released (some 1) (some e) ∧ impairing e = true) ∧
    (poolConn.Release (runOps (freshPoolConn 0 1)
        [some ⟨false, false, ("row not found")⟩, none])).2 = .released (some 1) none :=
  ⟨(release_health_signal 0 1 _).1.mp
      ⟨⟨true, false, ("net down")⟩, by
        exact List.mem_cons_of_mem _ (List.mem_cons_self _ _), by decide⟩,
   (release_health_signal 0 1 _).2.mpr (fun e he => by
      cases he with
      | head => rfl
      | tail _ he2 =>
        cases he2 with
        | tail _ he3 => cases he3)⟩

/-- Claim C9 counterexample: two successive health-impairing results; the
recorded health error after both is the second one, not the first, refuting
the claim that the first such error remains recorded. -/
theorem health_first_wins_cex :
    (runOps (freshPoolConn 0 1)
        [some ⟨true, false, ("first")⟩, some ⟨true, false, ("second")⟩]).err =
      some ⟨true, false, ("second")⟩ ∧
    impairing ⟨true, false, ("first")⟩ = true ∧
    some (⟨true, false, ("second")⟩ : Err) ≠ some (⟨true, false, ("first")⟩ : Err) := by
  refine ⟨by decide, by decide, by decide⟩

/-- Claim C9 as amended: once a health-impairing error is recorded the handle
stays impaired, but the recorded error is the most recent health-impairing
error of the operation sequence (later impairing errors overwrite earlier
ones; nil results and non-impairing errors leave the record unchanged). -/
theorem health_last_impairing_wins (c : PoolConn) (rs : List (Option Err))
    (h : c.err = none) :
    (runOps c rs).err = specLastImpairing rs := by
  rw [runOps_foldl rs c]
  show rs.foldl recordHealth c.err = _
  rw [h, foldl_recordHealth rs none]
  cases specLastImpairing rs <;> rfl

theorem health_last_impairing_wins_witness :
    (runOps (freshPoolConn 0 1)
        [some ⟨true, false, ("a")⟩, none, some ⟨false, true, ("b")⟩]).err =
      specLastImpairing [some ⟨true, false, ("a")⟩, none, some ⟨false, true, ("b")⟩] :=
  health_last_impairing_wins (freshPoolConn 0 1) _ rfl

/-! ### Claims on the borrow guard -/

/-- Claim C3: from the unborrowed state, a borrow for "transaction" or
"subtransaction" succeeds, records the reason, and returns the physical
connection; while borrowed, a second borrow of either kind fails with an
interface error that names the blocking borrow (and mentions "transaction"
in both cases); after unborrow, a borrow of either kind succeeds again. -/
theorem borrow_exclusive_by_reason (c : BorrowableConn) (r1 r2 : String)
    (h0 : c.reason = "")
    (h1 : r1 = "transaction" ∨ r1 = "subtransaction")
    (h2 : r2 = "transaction" ∨ r2 = "subtransaction") :
    borrow c r1 = ({ c with reason := r1 }, .ok c.baseConn) ∧
    (∃ m, (borrow { c with reason := r1 } r2).2 = .ifaceErr m ∧
      containsSub ("transaction").data m.data = true ∧
      containsSub (r1).data m.data = true) ∧
    unborrow { c with reason := r1 } = ({ c with reason := ("") }, none) ∧
    borrow { c with reason := ("") } r2 = ({ c with reason := r2 }, .ok c.baseConn) := by
  refine ⟨?_, ?_, ?_, ?_⟩
  · rcases h1 with h | h <;> subst h <;> simp [borrow, h0]
  · rcases h1 with h | h <;> subst h
    · exact ⟨transactionBorrowedMsg, by simp [borrow], by decide, by decide⟩
    · exact ⟨subtransactionBorrowedMsg, by simp [borrow], by decide, by decide⟩
  · rcases h1 with h | h <;> subst h <;> simp [unborrow]
  · rcases h2 with h | h <;> subst h <;> simp [borrow]

theorem borrow_exclusive_by_reason_witness :
    borrow ⟨7, ("")⟩ ("transaction") = (⟨7, ("transaction")⟩, .ok 7) ∧
    (∃ m, (borrow ⟨7, ("transaction")⟩ ("subtransaction")).2 = .ifaceErr m ∧
      containsSub ("transaction").data m.data = true ∧
      containsSub ("transaction").data m.data = true) ∧
    unborrow ⟨7, ("transaction")⟩ = (⟨7, ("")⟩, none) ∧
    borrow ⟨7, ("")⟩ ("subtransaction") = (⟨7, ("subtransaction")⟩, .ok 7) :=
  borrow_exclusive_by_reason ⟨7, ("")⟩ ("transaction") ("subtransaction")
    rfl (Or.inl rfl) (Or.inr rfl)

/-- Claim C4: assertUnborrowed leaves the borrow state unchanged regardless
of outcome, and while the connection is borrowed every facade entry point
(script flow and granular flow, hence Execute, Query, QueryOne, QueryJSON
and QueryOneJSON) returns the borrow error without invoking the underlying
connection flow. -/
theorem assert_unborrowed_guard (c : BorrowableConn)
    (sbase : Nat → SfQuery → Option String) (gbase : Nat → GfQuery → Option String)
    (q : SfQuery) (g : GfQuery) (cmd : String)
    (hb : c.reason = "transaction" ∨ c.reason = "subtransaction") :
    (∀ c2 : BorrowableConn, (assertUnborrowed c2).1 = c2) ∧
    (∃ m, (assertUnborrowed c).2 = .ifaceErr m ∧
      borrowableConn.scriptFlow sbase c q = (c, .borrowErr m, false) ∧
      borrowableConn.granularFlow gbase c g = (c, .borrowErr m, false) ∧
      borrowableConn.Execute sbase c cmd = (c, .borrowErr m, false) ∧
      borrowableConn.Query gbase c cmd = (c, .borrowErr m, false) ∧
      borrowableConn.QueryOne gbase c cmd = (c, .borrowErr m, false) ∧
      borrowableConn.QueryJSON gbase c cmd = (c, .borrowErr m, false) ∧
      borrowableConn.QueryOneJSON gbase c cmd = (c, .borrowErr m, false)) := by
  constructor
  · intro c2
    simp only [assertUnborrowed]
    split <;> try rfl
    split <;> try rfl
    split <;> rfl
  · have ha : ∃ m, assertUnborrowed c = (c, .ifaceErr m) := by
      rcases hb with h | h
      · exact ⟨transactionBorrowedMsg, by simp [assertUnborrowed, h]⟩
      · exact ⟨subtransactionBorrowedMsg, by simp [assertUnborrowed, h]⟩
    rcases ha with ⟨m, hm⟩
    refine ⟨m, by rw [hm], ?_, ?_, ?_, ?_, ?_, ?_, ?_⟩ <;>
      simp only [borrowableConn.scriptFlow, borrowableConn.granularFlow,
        borrowableConn.Execute, borrowableConn.Query, borrowableConn.QueryOne,
        borrowableConn.QueryJSON, borrowableConn.QueryOneJSON, runQuery, hm]

theorem assert_unborrowed_guard_witness :
    (∀ c2 : BorrowableConn, (assertUnborrowed c2).1 = c2) ∧
    (∃ m, (assertUnborrowed ⟨5, ("transaction")⟩).2 = .ifaceErr m ∧
      borrowableConn.scriptFlow (fun _ _ => none) ⟨5, ("transaction")⟩ ⟨("c"), borrowHeaders⟩
        = (⟨5, ("transaction")⟩, .borrowErr m, false) ∧
      borrowableConn.granularFlow (fun _ _ => none) ⟨5, ("transaction")⟩ ⟨("M"), ("c")⟩
        = (⟨5, ("transaction")⟩, .borrowErr m, false) ∧
      borrowableConn.Execute (fun _ _ => none) ⟨5, ("transaction")⟩ ("c")
        = (⟨5, ("transaction")⟩, .borrowErr m, false) ∧
      borrowableConn.Query (fun _ _ => none) ⟨5, ("transaction")⟩ ("c")
        = (⟨5, ("transaction")⟩, .borrowErr m, false) ∧
      borrowableConn.QueryOne (fun _ _ => none) ⟨5, ("transaction")⟩ ("c")
        = (⟨5, ("transaction")⟩, .borrowErr m, false) ∧
      borrowableConn.QueryJSON (fun _ _ => none) ⟨5, ("transaction")⟩ ("c")
        = (⟨5, ("transaction")⟩, .borrowErr m, false) ∧
      borrowableConn.QueryOneJSON (fun _ _ => none) ⟨5, ("transaction")⟩ ("c")
        = (⟨5, ("transaction")⟩, .borrowErr m, false)) :=
  assert_unborrowed_guard ⟨5, ("transaction")⟩ (fun _ _ => none) (fun _ _ => none)
    ⟨("c"), borrowHeaders⟩ ⟨("M"), ("c")⟩ ("c") (Or.inl rfl)

/-! ### Helper lemmas: error aggregation -/

theorem joinedBySemicolons_glue (a b : String) (l : List String) :
    joinedBySemicolons ((a ++ "; " ++ b) :: l) = a ++ "; " ++ joinedBySemicolons (b :: l) := by
  cases l with
  | nil => rfl
  | cons x xs =>
    show (a ++ "; " ++ b) ++ "; " ++ joinedBySemicolons (x :: xs)
      = a ++ "; " ++ (b ++ "; " ++ joinedBySemicolons (x :: xs))
    simp [String.append_assoc]

theorem foldl_msg_join (rest : List GErr) : ∀ a : String,
    rest.foldl (fun m x => m ++ "; " ++ errMsg x) a
      = joinedBySemicolons (a :: rest.map errMsg) := by
  induction rest with
  | nil => intro a; rfl
  | cons x xs ih =>
    intro a
    show xs.foldl _ (a ++ "; " ++ errMsg x) = _
    rw [ih (a ++ "; " ++ errMsg x), List.map_cons, joinedBySemicolons_glue]
    rfl

theorem errorsIsList_iff (t : GErr) : ∀ l : List GErr,
    errorsIsList l t = true ↔ ∃ g ∈ l, errorsIs g t = true := by
  intro l
  induction l with
  | nil => simp [errorsIsList]
  | cons e rest ih =>
    simp only [errorsIsList, Bool.or_eq_true, ih, List.mem_cons]
    constructor
    · rintro (h | ⟨g, hg, hgt⟩)
      · exact ⟨e, Or.inl rfl, h⟩
      · exact ⟨g, Or.inr hg, hgt⟩
    · rintro ⟨g, hg | hg, hgt⟩
      · subst hg; exact Or.inl hgt
      · exact Or.inr ⟨g, hg, hgt⟩

theorem errorsAsList_iff (ty : Nat) : ∀ l : List GErr,
    errorsAsList l ty = true ↔ ∃ g ∈ l, errorsAs g ty = true := by
  intro l
  induction l with
  | nil => simp [errorsAsList]
  | cons e rest ih =>
    simp only [errorsAsList, Bool.or_eq_true, ih, List.mem_cons]
    constructor
    · rintro (h | ⟨g, hg, hgt⟩)
      · exact ⟨e, Or.inl rfl, h⟩
      · exact ⟨g, Or.inr hg, hgt⟩
    · rintro ⟨g, hg | hg, hgt⟩
      · subst hg; exact Or.inl hgt
      · exact Or.inr ⟨g, hg, hgt⟩

/-! ### Claim on error aggregation -/

/-- Claim C5: Aggregate (wrapAll) filters out nils; zero remaining errors
yield nil, exactly one yields that error value unmodified, two or more yield
an aggregate whose display message joins the constituent messages with
"; " in input order and whose Is and As membership tests hold exactly when
some constituent matches (the methods scan the constituents in order and
return at the first match). -/
theorem wrapAll_contract (es : List (Option GErr)) :
    (wrapAll es =
      match es.filterMap id with
      | [] => none
      | [e] => some e
      | e :: f :: rest =>
        some (.wrappedMany (joinedBySemicolons ((e :: f :: rest).map errMsg)) (e :: f :: rest))) ∧
    (∀ (m : String) (l : List GErr) (t : GErr),
      errorsIs (.wrappedMany m l) t = true ↔ ∃ g ∈ l, errorsIs g t = true) ∧
    (∀ (m : String) (l : List GErr) (ty : Nat),
      errorsAs (.wrappedMany m l) ty = true ↔ ∃ g ∈ l, errorsAs g ty = true) := by
  refine ⟨?_, ?_, ?_⟩
  · show wrapAll es = _
    unfold wrapAll
    cases hes : es.filterMap id with
    | nil => rfl
    | cons e rest =>
      cases rest with
      | nil => rfl
      | cons f rs =>
        show some (GErr.wrappedMany
            ((f :: rs).foldl (fun m x => m ++ "; " ++ errMsg x) (errMsg e)) (e :: f :: rs))
          = some (GErr.wrappedMany
            (joinedBySemicolons ((e :: f :: rs).map errMsg)) (e :: f :: rs))
        rw [foldl_msg_join (f :: rs) (errMsg e)]
        rfl
  · intro m l t
    show errorsIsList l t = true ↔ _
    exact errorsIsList_iff t l
  · intro m l ty
    show errorsAsList l ty = true ↔ _
    exact errorsAsList_iff ty l

/-! ### Helper lemmas: error-response decoding -/

theorem runeCount_eq_scalars (l : List Char) : ∀ b : Nat,
    isScalarBoundary l b = true → runeCountUpTo l b = scalarsBefore l b := by
  induction l with
  | nil =>
    intro b hb
    cases b with
    | zero => rfl
    | succ n => simp [isScalarBoundary] at hb
  | cons c rest ih =>
    intro b hb
    cases b with
    | zero => rfl
    | succ n =>
      by_cases hc : charUtf8Size c ≤ n + 1
      · simp only [isScalarBoundary, if_pos hc] at hb
        simp only [runeCountUpTo, scalarsBefore, if_pos hc]
        rw [ih _ hb]
      · simp only [isScalarBoundary, if_neg hc] at hb
        cases hb

theorem positionFromHeaders_eq (hs : List (Nat × String)) (L B : String) (l b : Int)
    (hL : headerLookup hs lineStartHeader = some L)
    (hB : headerLookup hs positionStartHeader = some B)
    (hl : atoi? L = some l) (hb : atoi? B = some b) :
    positionFromHeaders hs = .pos ⟨l - 1, b⟩ := by
  unfold positionFromHeaders
  simp only [hL, hB, hl, hb]

theorem decodeRender_info_inv (hs : List (Nat × String)) (q : String)
    (ln : Int) (line : String) (off rc : Nat) (hintText : String)
    (h : decodeRender hs q = .info ln line off rc hintText) :
    ∃ ps : ErrPosition, positionFromHeaders hs = .pos ps ∧
      ln = ps.lineNo ∧ 0 ≤ ps.lineNo ∧ ps.lineNo < ((linesOf q).length : Int) ∧
      line = tabsToSpaces ((linesOf q).getD ps.lineNo.toNat ("")) ∧
      (off : Int) = ps.byteNo - (precBytes (linesOf q) ps.lineNo.toNat : Int) ∧
      (off : Int) ≤ (byteLen line : Int) ∧
      rc = runeCountUpTo line.data off ∧
      hintText = (headerLookup hs hintHeader).getD ("error") := by
  unfold decodeRender at h
  split at h
  · cases h
  · cases h
  · rename_i ps hp
    dsimp only at h
    split at h
    · rename_i hrange
      split at h
      · rename_i hslice
        rw [RenderInfo.info.injEq] at h
        obtain ⟨hln, hline, hoff, hrc, hhint⟩ := h
        refine ⟨ps, hp, hln.symm, hrange.1, hrange.2, hline.symm, ?_, ?_, ?_, hhint.symm⟩
        · rw [← hoff, Int.toNat_of_nonneg hslice.1]
        · rw [← hoff, Int.toNat_of_nonneg hslice.1, ← hline]
          exact hslice.2
        · rw [← hrc, ← hline, ← hoff]
      · cases h
    · cases h

/-! ### Claims on error-response decoding -/

/-- Claim C6 counterexample: both position headers present, the byte offset
falls strictly inside the three-byte encoding of the euro sign, and the code
renders column 3 (counting the two truncated bytes as two scalar values)
while zero Unicode scalar values of the target line precede byte offset 2,
refuting the claim that the rendered caret column always equals the count of
scalar values preceding the byte offset. -/
theorem rendered_column_cex :
    decodeError ⟨0, 5, ("boom"), [(lineStartHeader, ("1")), (positionStartHeader, ("2"))]⟩
        ("€x")
      = .ok 5 ("boom\nquery:1:3\n\n€x\n  ^ error") ∧
    decodeRender [(lineStartHeader, ("1")), (positionStartHeader, ("2"))] ("€x")
      = .info 0 ("€x") 2 2 ("error") ∧
    scalarsBefore ("€x").data 2 = 0 ∧ (2 : Nat) ≠ 1 + scalarsBefore ("€x").data 2 := by
  refine ⟨by decide, by decide, by decide, by decide⟩

/-- Claim C6 as amended: for every payload carrying both position headers
whose rendering succeeds and whose line byte offset falls on a Unicode
scalar-value boundary of the target line, the zero-based line number is the
line-start header value minus one, the byte offset is the position-start
header value minus the byte length of every preceding line plus its newline,
and the rendered rune count is the count of Unicode scalar values (not
bytes) preceding the byte offset on the target line; when the offset falls
strictly inside the encoding of a multi-byte scalar value, the code counts
each truncated byte as one rune instead. -/
theorem rendered_column_eq_scalars_on_boundary (p : ErrorPayload) (q : String)
    (L B : String) (l b : Int)
    (hL : headerLookup p.headers lineStartHeader = some L)
    (hB : headerLookup p.headers positionStartHeader = some B)
    (hl : atoi? L = some l) (hb : atoi? B = some b)
    (ln : Int) (line : String) (off rc : Nat) (hintText : String)
    (hr : decodeRender p.headers q = .info ln line off rc hintText)
    (hbd : isScalarBoundary line.data off = true) :
    ln = l - 1 ∧
    (off : Int) = b - (precBytes (linesOf q) (l - 1).toNat : Int) ∧
    rc = scalarsBefore line.data off := by
  obtain ⟨ps, hp, hln, _, _, _, hoff, _, hrc, _⟩ :=
    decodeRender_info_inv p.headers q ln line off rc hintText hr
  rw [positionFromHeaders_eq p.headers L B l b hL hB hl hb] at hp
  cases hp
  exact ⟨hln, hoff, by rw [hrc, runeCount_eq_scalars line.data off hbd]⟩

theorem rendered_column_eq_scalars_witness :
    (0 : Int) = 1 - 1 ∧
    ((4 : Nat) : Int) = 4 - (precBytes (linesOf ("héllo")) ((1 : Int) - 1).toNat : Int) ∧
    (3 : Nat) = scalarsBefore ("héllo").data 4 :=
  rendered_column_eq_scalars_on_boundary
    ⟨0, 5, ("boom"), [(lineStartHeader, ("1")), (positionStartHeader, ("4"))]⟩
    ("héllo") ("1") ("4") 1 4 (by decide) (by decide) (by decide) (by decide)
    0 ("héllo") 4 3 ("error") (by decide) (by decide)

/-- Claim C7: for every payload missing either the line-start header or the
position-start header, decoding returns the plain code/message pair with no
appended position block. -/
theorem decode_plain_without_position_headers (p : ErrorPayload) (q : String)
    (h : headerLookup p.headers lineStartHeader = none ∨
      headerLookup p.headers positionStartHeader = none) :
    decodeError p q = .ok p.code p.msg := by
  have hp : positionFromHeaders p.headers = .noPos := by
    unfold positionFromHeaders
    rcases h with h | h
    · rw [h]
    · cases hx : headerLookup p.headers lineStartHeader with
      | none => rfl
      | some L => rw [h]
  unfold decodeError decodeRender
  rw [hp]

theorem decode_plain_without_position_witness :
    decodeError ⟨0, 7, ("oops"), [(hintHeader, ("hi")), (lineStartHeader, ("2"))]⟩
      ("SELECT 1") = .ok 7 ("oops") :=
  decode_plain_without_position_headers
    ⟨0, 7, ("oops"), [(hintHeader, ("hi")), (lineStartHeader, ("2"))]⟩
    ("SELECT 1") (Or.inr (by decide))

/-- Claim C8 counterexample: at a concrete payload with both position
headers, the code places the blank line after the query-position line, while
the claim places it between the original message and the query-position
line; the two composed strings differ. -/
theorem compose_order_cex :
    decodeError ⟨0, 7, ("oops"), [(lineStartHeader, ("1")), (positionStartHeader, ("2"))]⟩
        ("SELECT x")
      = .ok 7 ("oops\nquery:1:3\n\nSELECT x\n  ^ error") ∧
    claimComposedMessage ("oops") 1 3 ("SELECT x") ("  ") ("error")
      = ("oops\n\nquery:1:3\nSELECT x\n  ^ error") ∧
    ("oops\nquery:1:3\n\nSELECT x\n  ^ error") ≠
      ("oops\n\nquery:1:3\nSELECT x\n  ^ error") := by
  refine ⟨by decide, by decide, by decide⟩

/-- Claim C8 as amended: for every payload carrying both position headers
whose rendering succeeds, with the byte offset on a scalar-value boundary of
the target line, the composed message is the original message, then on a new
line the block "query:<1-based line>:<1-based column>", then a blank line,
then the source line with each tab replaced by a single space, then a line
of one space per preceding scalar value followed by the caret and the hint
header value, or the literal word "error" when the hint header is absent
(the blank line follows the query-position line instead of preceding it). -/
theorem compose_message_amended (p : ErrorPayload) (q : String)
    (ln : Int) (line : String) (off rc : Nat) (hintText : String)
    (hr : decodeRender p.headers q = .info ln line off rc hintText)
    (hbd : isScalarBoundary line.data off = true) :
    decodeError p q =
      .ok p.code
        (p.msg ++ "\nquery:" ++ toString (1 + ln) ++ ":"
          ++ toString (1 + scalarsBefore line.data off) ++ "\n\n" ++ line ++ "\n"
          ++ spacesStr (scalarsBefore line.data off) ++ "^ "
          ++ ((headerLookup p.headers hintHeader).getD ("error"))) := by
  obtain ⟨ps, hp, hln, _, _, _, hoff, _, hrc, hhint⟩ :=
    decodeRender_info_inv p.headers q ln line off rc hintText hr
  unfold decodeError
  rw [hr, hrc, runeCount_eq_scalars line.data off hbd, hhint]

theorem compose_message_amended_witness :
    decodeError
        ⟨0, 9, ("tabs"), [(lineStartHeader, ("1")), (positionStartHeader, ("2")),
          (hintHeader, ("here"))]⟩ ("a\tb\tc")
      = .ok 9 ("tabs\nquery:1:3\n\na b c\n  ^ here") := by
  have h := compose_message_amended
    ⟨0, 9, ("tabs"), [(lineStartHeader, ("1")), (positionStartHeader, ("2")),
      (hintHeader, ("here"))]⟩ ("a\tb\tc")
    0 ("a b c") 2 2 ("here") (by decide) (by decide)
  exact h.trans (by decide)

/-- Claim C10: for some payloads carrying both position headers whose values
point outside the query text, decoding aborts the way the Go code panics on
out-of-range indexing (line number past the last line; byte position beyond
the end of the target line; byte position before the start of the target
line), and the position-rendering path returns a decoded error whenever the
headers point inside the query text. -/
theorem decode_position_out_of_range (pA : ErrorPayload) (qA : String) :
    decodeError ⟨0, 7, ("oops"), [(lineStartHeader, ("5")), (positionStartHeader, ("1"))]⟩
        ("SELECT 1") = .fatalDecode ("runtime error: index out of range") ∧
    decodeError ⟨0, 7, ("oops"), [(lineStartHeader, ("1")), (positionStartHeader, ("7"))]⟩
        ("ab") = .fatalDecode ("runtime error: slice bounds out of range") ∧
    decodeError ⟨0, 7, ("oops"), [(lineStartHeader, ("2")), (positionStartHeader, ("0"))]⟩
        ("a\nb") = .fatalDecode ("runtime error: slice bounds out of range") ∧
    (∀ ps : ErrPosition,
      positionFromHeaders pA.headers = .pos ps →
      0 ≤ ps.lineNo → ps.lineNo < ((linesOf qA).length : Int) →
      0 ≤ ps.byteNo - (precBytes (linesOf qA) ps.lineNo.toNat : Int) →
      ps.byteNo - (precBytes (linesOf qA) ps.lineNo.toNat : Int)
        ≤ (byteLen (tabsToSpaces ((linesOf qA).getD ps.lineNo.toNat (""))) : Int) →
      ∃ m, decodeError pA qA = .ok pA.code m) := by
  refine ⟨by decide, by decide, by decide, ?_⟩
  intro ps hp h1 h2 h3 h4
  unfold decodeError decodeRender
  rw [hp]
  dsimp only
  rw [if_pos ⟨h1, h2⟩, if_pos ⟨h3, h4⟩]
  exact ⟨_, rfl⟩

theorem decode_position_out_of_range_witness :
    ∃ m, decodeError ⟨0, 7, ("ok"), [(lineStartHeader, ("1")), (positionStartHeader, ("1"))]⟩
      ("ab") = .ok 7 m :=
  (decode_position_out_of_range
      ⟨0, 7, ("ok"), [(lineStartHeader, ("1")), (positionStartHeader, ("1"))]⟩
      ("ab")).2.2.2 ⟨0, 1⟩ (by decide) (by decide) (by decide) (by decide) (by decide)

end EdgedbGo
